import Mathlib

/-!
Verification of the shop-scout-live price-comparison client against its
specification.  The definitions below are a shallow embedding of the
TypeScript source (`src/pages/Index.tsx`, `src/pages/Auth.tsx`) and of the
SQL schema in the migration file.  JavaScript numbers are modelled as
rationals; `toFixed(2)` is modelled as rounding to the nearest cent;
record maps (`Record<string, T>`) are modelled as functions
`String → Option T`.
-/

namespace ShopScout

/-- A row of `product_sources`, as selected by `fetchProducts`
    (`Index.tsx`, type `ProductSource`). -/
structure ProductSource where
  id : String
  source_name : String
  source_url : String
  current_price : ℚ
  currency : String
  availability : Bool
  updated_at : Option String
deriving DecidableEq, Repr

/-- A row of `products` with its nested sources, as selected by
    `fetchProducts` (`Index.tsx`, type `Product`). -/
structure Product where
  id : String
  name : String
  category : Option String
  image_url : Option String
  product_sources : List ProductSource
deriving DecidableEq, Repr

/-- The transient per-source price pair kept in `priceState`
    (`Index.tsx` line 50: `Record<string, { prev; curr }>`). -/
structure PricePair where
  prev : ℚ
  curr : ℚ
deriving DecidableEq, Repr

/-- The `priceState` map: source id to its previous/current pair. -/
def PriceState : Type := String → Option PricePair

/-- The `bestPriceRef` map: product id to its recorded minimum price
    (`undefined` modelled as `none`). -/
def BestMap : Type := String → Option ℚ

/-- Embeds `priceState[s.id]?.curr ?? s.current_price` (`Index.tsx` lines 127/192/228). -/
def sourceCurr (ps : PriceState) (s : ProductSource) : ℚ :=
  match ps s.id with
  | some pr => pr.curr
  | none => s.current_price

/-- Embeds `priceState[s.id]?.prev ?? s.current_price` (`Index.tsx` line 227). -/
def sourcePrev (ps : PriceState) (s : ProductSource) : ℚ :=
  match ps s.id with
  | some pr => pr.prev
  | none => s.current_price

/-- Embeds `Math.min(...)` over a list, `none` when the list is empty
    (JavaScript would give `Infinity` there; the code guards that case
    with `Number.isFinite` or an early return). -/
def listMin : List ℚ → Option ℚ
  | [] => none
  | x :: xs => some (xs.foldl min x)

/-- Embeds `+(x).toFixed(2)`: round to the nearest cent (half away from zero is
    irrelevant at the granularity this code uses; nearest with half-up
    matches `toFixed` on the values that occur). -/
def round2 (x : ℚ) : ℚ := (round (x * 100) : ℤ) / 100

/-! ### Best-price display (`Index.tsx` lines 189–223) -/

/-- Accumulator of the `sources.reduce` that computes the displayed
    best price (`Index.tsx` line 191: initial value `{ price: 0 }`). -/
structure LowAcc where
  price : ℚ
  source : Option ProductSource
deriving DecidableEq, Repr

/-- One step of the reduce at `Index.tsx` lines 191–195:
    `if (acc.price === 0 || curr < acc.price) return { price: curr, source: s }`. -/
def lowStep (ps : PriceState) (acc : LowAcc) (s : ProductSource) : LowAcc :=
  if acc.price = 0 ∨ sourceCurr ps s < acc.price then
    { price := sourceCurr ps s, source := some s }
  else acc

/-- The `lowest` value computed per product card (`Index.tsx` lines 191–195). -/
def lowestCalc (ps : PriceState) (sources : List ProductSource) : LowAcc :=
  sources.foldl (lowStep ps) { price := 0, source := none }

/-- Embeds `Math.min(...sources.map((s) => priceState[s.id]?.curr ?? s.current_price))`
    (`Index.tsx` line 127). -/
def currentMinOf (ps : PriceState) (sources : List ProductSource) : Option ℚ :=
  listMin (sources.map (sourceCurr ps))

/-- Initialisation of `bestPriceRef` from query data (`Index.tsx`
    lines 71–72): the minimum of the sources' prices, or `undefined`
    when the product has no sources (the `Number.isFinite` guard). -/
def bestInit (sources : List ProductSource) : Option ℚ :=
  listMin (sources.map (·.current_price))

/-! ### Notification pass (`Index.tsx` lines 122–134) -/

/-- The body of the notification `useEffect` for one product
    (`Index.tsx` lines 124–133): returns whether the lowest-price toast
    fires and the updated `bestPriceRef` map. -/
def notifyStep (ps : PriceState) (best : BestMap) (p : Product) : Bool × BestMap :=
  match currentMinOf ps p.product_sources with
  | none => (false, best)
  | some currentMin =>
    let fires := match best p.id with
      | some prevMin => decide (currentMin < prevMin)
      | none => false
    (fires, fun k => if k = p.id then some currentMin else best k)

/-! ### Per-source row render (`Index.tsx` lines 226–258) -/

/-- Embeds `+(curr - prev).toFixed(2)` (`Index.tsx` line 229). -/
def rowDiff (p : PricePair) : ℚ := round2 (p.curr - p.prev)

/-- Embeds `curr < prev` (`Index.tsx` line 230). -/
def rowWentDown (p : PricePair) : Bool := decide (p.curr < p.prev)

/-- The per-source notable-drop toast condition (`Index.tsx` line 239):
    `wentDown && Math.abs(diff) / prev > 0.02`. -/
def notableDrop (p : PricePair) : Bool :=
  rowWentDown p && decide ((2 : ℚ)/100 < |rowDiff p| / p.prev)

/-! ### Realtime update handler (`Index.tsx` lines 84–93) -/

/-- The `postgres_changes` UPDATE handler: the source's previous price
    becomes the last held current price (`ps[row.id]?.curr ?? row.current_price`)
    and its current price becomes the event's price. -/
def applyUpdate (ps : PriceState) (rowId : String) (price : ℚ) : PriceState :=
  fun k =>
    if k = rowId then
      some { prev := match ps rowId with
                     | some pr => pr.curr
                     | none => price,
             curr := price }
    else ps k

/-! ### Simulated price tick (`Index.tsx` lines 103–119) -/

/-- One simulated tick for one source, with `r` the value of
    `Math.random()` (so `0 ≤ r < 1`):
    `deltaPct = (r - 0.5) * 0.05; Math.max(100, +(curr * (1 + deltaPct)).toFixed(2))`. -/
def simTick (curr r : ℚ) : ℚ :=
  let deltaPct := (r - 1/2) * (5/100)
  max 100 (round2 (curr * (1 + deltaPct)))

/-! ### Search filter (`Index.tsx` lines 136–140) -/

/-- JavaScript `s.toLowerCase()`: per-character lowercasing (the names
    and searches this application handles are ASCII, where
    `Char.toLower` agrees with the JavaScript mapping). -/
def jsToLower (s : String) : String := String.mk (s.data.map Char.toLower)

/-- Drop leading whitespace characters. -/
def trimLeftChars : List Char → List Char
  | [] => []
  | c :: cs => if c.isWhitespace then trimLeftChars cs else c :: cs

/-- JavaScript `s.trim()`: strip whitespace from both ends. -/
def jsTrim (s : String) : String :=
  String.mk ((trimLeftChars (trimLeftChars s.data).reverse).reverse)

/-- Tests that `needle` occurs as a contiguous run at the front of `hay`. -/
def listIsPrefOf : List Char → List Char → Bool
  | [], _ => true
  | _ :: _, [] => false
  | a :: as, b :: bs => a == b && listIsPrefOf as bs

/-- JavaScript `hay.includes(needle)`: `needle` occurs as a contiguous
    substring of `hay` (argument order: needle first). -/
def listSubstr (needle : List Char) : List Char → Bool
  | [] => listIsPrefOf needle []
  | c :: rest => listIsPrefOf needle (c :: rest) || listSubstr needle rest

/-- Embeds `hay.includes(needle)` on strings. -/
def jsIncludes (hay needle : String) : Bool := listSubstr needle.toList hay.toList

/-- The `filtered` memo (`Index.tsx` lines 136–140):
    `q = search.trim().toLowerCase(); if (!q) return products;
     return products.filter((p) => p.name.toLowerCase().includes(q))`. -/
def filteredProducts (products : List Product) (search : String) : List Product :=
  let q := jsToLower (jsTrim search)
  if q = "" then products
  else products.filter (fun p => jsIncludes (jsToLower p.name) q)

/-! ### Price history (`Index.tsx` lines 90 and 113) -/

/-- JavaScript `l.slice(-n)`: the last `n` elements (all of `l` when it
    is shorter). -/
def lastN (n : Nat) (l : List ℚ) : List ℚ := l.drop (l.length - n)

/-- The two events that mutate one source's entry of `historyRef`:
    a simulated tick (`Index.tsx` line 113, `slice(-30)`) or an external
    row-update event (`Index.tsx` line 90, `slice(-20)`), each carrying
    the new price. -/
inductive HistOp where
  | tick (p : ℚ)
  | extUpdate (p : ℚ)
deriving DecidableEq, Repr

/-- Apply one history mutation. -/
def applyHistOp (h : List ℚ) : HistOp → List ℚ
  | .tick p => lastN 30 (h ++ [p])
  | .extUpdate p => lastN 20 (h ++ [p])

/-- Apply a sequence of history mutations in order. -/
def applyHistOps (h : List ℚ) (ops : List HistOp) : List ℚ :=
  ops.foldl applyHistOp h

/-! ### Authentication screen (`Auth.tsx` lines 30–54) and header nav
    (`Index.tsx` lines 155–163) -/

/-- Outcome of the auth collaborator call made by `handleSubmit`:
    success, or failure carrying `err?.message` (the empty string stands
    for a falsy/absent message). -/
inductive AuthResult where
  | ok
  | err (msg : String)
deriving DecidableEq, Repr

/-- Observable outcome of one `handleSubmit` run (`Auth.tsx` lines 30–54). -/
structure SubmitOutcome where
  toasts : List String
  errToast : Option String
  navigatedHome : Bool
  loadingAfter : Bool
deriving DecidableEq, Repr

/-- Embeds `handleSubmit` (`Auth.tsx` lines 30–54): sign-up success toasts the
    confirm-email instruction without navigating; sign-in success toasts
    a welcome and navigates home; any thrown error is caught and shown
    via `toast.error(err?.message || "Authentication error")`; `finally`
    clears `loading`. -/
def handleSubmit (isSignUp : Bool) (res : AuthResult) : SubmitOutcome :=
  match res with
  | .ok =>
    if isSignUp then
      { toasts := ["Check your email to confirm and sign in."],
        errToast := none, navigatedHome := false, loadingAfter := false }
    else
      { toasts := ["Welcome back!"],
        errToast := none, navigatedHome := true, loadingAfter := false }
  | .err m =>
    { toasts := [],
      errToast := some (if m = "" then "Authentication error" else m),
      navigatedHome := false, loadingAfter := false }

/-- The header auth link label (`Index.tsx` line 157):
    `sessionUser ? "Account" : "Login"`. -/
def headerAuthLabel (sessionUser : Option String) : String :=
  match sessionUser with
  | some _ => "Account"
  | none => "Login"

/-- The static message rendered when the initial load failed
    (`Index.tsx` line 186). -/
def loadErrorMessage : String := "Failed to load products"

/-- What the listing renders for the error slot (`Index.tsx` line 186):
    the static failure message whenever an error is present, independent
    of the error's own text. -/
def renderOnError (e : Option String) : Option String :=
  e.map (fun _ => loadErrorMessage)

end ShopScout

/-! ## Concrete fixtures (from the migration's sample data and small
    states used to instantiate the theorems) -/

namespace ShopScout

/-- The empty `priceState` map (before initialisation). -/
def emptyPS : PriceState := fun _ => none

/-- Amazon source of "iPhone 15 Pro" (migration sample data: 99999.00). -/
def amazonSource : ProductSource :=
  { id := "src-amazon", source_name := "Amazon", source_url := "https://amazon.in/product/p1",
    current_price := 99999, currency := "INR", availability := true, updated_at := none }

/-- Flipkart source of "iPhone 15 Pro" (migration sample data: 98999.00). -/
def flipkartSource : ProductSource :=
  { id := "src-flipkart", source_name := "Flipkart", source_url := "https://flipkart.com/product/p1",
    current_price := 98999, currency := "INR", availability := true, updated_at := none }

/-- A source priced exactly 0 (the schema's `DECIMAL(10,2) NOT NULL`
    admits 0.00, and the spec's data model allows any non-negative price). -/
def zeroSource : ProductSource :=
  { id := "src-zero", source_name := "Amazon", source_url := "https://amazon.in/product/z",
    current_price := 0, currency := "INR", availability := true, updated_at := none }

/-- A source priced 5, listed after the zero-priced one. -/
def fiveSource : ProductSource :=
  { id := "src-five", source_name := "Flipkart", source_url := "https://flipkart.com/product/z",
    current_price := 5, currency := "INR", availability := true, updated_at := none }

/-- A product with a single loaded product named "a". -/
def prodA : Product :=
  { id := "p1", name := "a", category := none, image_url := none, product_sources := [] }

/-- A product with no price sources. -/
def emptyProduct : Product :=
  { id := "p-empty", name := "Ghost", category := none, image_url := none, product_sources := [] }

/-- A product with one source priced 90. -/
def oneSrcProduct : Product :=
  { id := "p-one", name := "X", category := none, image_url := none,
    product_sources := [{ id := "s-one", source_name := "A", source_url := "https://a/x",
                          current_price := 90, currency := "INR", availability := true,
                          updated_at := none }] }

/-- A `bestPriceRef` map recording 100 for `oneSrcProduct`. -/
def bestAt100 : BestMap := fun k => if k = "p-one" then some 100 else none

/-- A `bestPriceRef` map recording 42 for every product. -/
def bestAt42 : BestMap := fun _ => some 42

/-- A `priceState` holding pair (98999, 98999) for the Flipkart source. -/
def psFlipkart : PriceState :=
  fun k => if k = "src-flipkart" then some { prev := 98999, curr := 98999 } else none

end ShopScout

/-! ## Theorems -/

namespace ShopScout

/-- C2 fails as stated: searching `"a "` (trailing space) displays the
    product named `"a"`, although that name does not contain the search
    string `"a "` case-insensitively — the code filters by the trimmed
    search string. -/
theorem C2_counterexample :
    filteredProducts [prodA] "a " = [prodA] ∧
    jsIncludes (jsToLower prodA.name) (jsToLower "a ") = false := by
  decide

/-- C2 (amended): a product is displayed iff it is loaded and either the
    trimmed, lowercased search string is empty, or its lowercased name
    contains that trimmed, lowercased search string. -/
theorem C2_filtered_characterisation (products : List Product) (search : String) (p : Product) :
    p ∈ filteredProducts products search ↔
      p ∈ products ∧
        (jsToLower (jsTrim search) = "" ∨
          jsIncludes (jsToLower p.name) (jsToLower (jsTrim search)) = true) := by
  unfold filteredProducts
  by_cases h : jsToLower (jsTrim search) = ""
  · simp [h]
  · simp [h, List.mem_filter]

/-- C7: a successful sign-in submission navigates to the listing screen,
    while a successful sign-up submission does not navigate and instead
    toasts the confirm-by-email instruction; with a session present the
    header link reads "Account", not "Login". -/
theorem C7_auth_outcomes (u : String) :
    (handleSubmit false .ok).navigatedHome = true ∧
    (handleSubmit true .ok).navigatedHome = false ∧
    (handleSubmit true .ok).toasts = ["Check your email to confirm and sign in."] ∧
    headerAuthLabel (some u) = "Account" ∧
    headerAuthLabel (some u) ≠ "Login" ∧
    headerAuthLabel none = "Login" := by
  refine ⟨rfl, rfl, rfl, rfl, ?_, rfl⟩
  show ("Account" : String) ≠ "Login"
  decide

/-- C8: a failed initial load renders the static failure message
    (whatever the underlying error text), and a failed authentication
    attempt shows the failure message verbatim, does not navigate away,
    and clears the loading flag so the form stays interactive. -/
theorem C8_failures_surfaced (isSignUp : Bool) (m e : String) (hm : m ≠ "") :
    renderOnError (some e) = some loadErrorMessage ∧
    (handleSubmit isSignUp (.err m)).errToast = some m ∧
    (handleSubmit isSignUp (.err m)).navigatedHome = false ∧
    (handleSubmit isSignUp (.err m)).loadingAfter = false := by
  refine ⟨rfl, ?_, ?_, ?_⟩ <;> simp [handleSubmit, hm]

/-- Witness for C8 at a concrete failing sign-in. -/
theorem C8_witness :
    renderOnError (some "network down") = some loadErrorMessage ∧
    (handleSubmit false (.err "Invalid login credentials")).errToast =
      some "Invalid login credentials" ∧
    (handleSubmit false (.err "Invalid login credentials")).navigatedHome = false ∧
    (handleSubmit false (.err "Invalid login credentials")).loadingAfter = false :=
  C8_failures_surfaced false "Invalid login credentials" "network down" (by decide)

/-- Truncation with `slice(-n)` keeps at most `n` entries. -/
theorem lastN_length_le (n : Nat) (l : List ℚ) : (lastN n l).length ≤ n := by
  simp only [lastN, List.length_drop]
  omega

/-- C9: starting from the singleton history written at initialisation,
    any sequence of simulated ticks and external update events leaves at
    most 30 entries; a tick truncates to the last 30, an external update
    to the last 20. -/
theorem C9_history_bounded (p q : ℚ) (ops : List HistOp) (h : List ℚ) :
    (applyHistOps [p] ops).length ≤ 30 ∧
    (applyHistOp h (.tick q)).length ≤ 30 ∧
    (applyHistOp h (.extUpdate q)).length ≤ 20 := by
  refine ⟨?_, lastN_length_le 30 _, lastN_length_le 20 _⟩
  have step : ∀ (ops : List HistOp) (l : List ℚ), l.length ≤ 30 →
      (applyHistOps l ops).length ≤ 30 := by
    intro ops
    induction ops with
    | nil => intro l hl; exact hl
    | cons op rest ih =>
      intro l hl
      show (applyHistOps (applyHistOp l op) rest).length ≤ 30
      apply ih
      cases op with
      | tick r => exact lastN_length_le 30 _
      | extUpdate r => exact le_trans (lastN_length_le 20 _) (by omega)
  exact step ops [p] (by simp)

/-- C10: a product with zero price sources never displays a best-price
    label (the reduce yields no source), its recorded best price is
    initialised to `undefined` rather than an infinite value, and the
    notification pass neither fires nor touches its record. -/
theorem C10_empty_sources (ps : PriceState) (best : BestMap) (p : Product)
    (h : p.product_sources = []) :
    (lowestCalc ps p.product_sources).source = none ∧
    bestInit p.product_sources = none ∧
    (notifyStep ps best p).1 = false ∧
    (notifyStep ps best p).2 p.id = best p.id := by
  refine ⟨?_, ?_, ?_, ?_⟩ <;>
    simp [h, lowestCalc, bestInit, listMin, notifyStep, currentMinOf]

/-- Witness for C10 at a concrete empty-sourced product. -/
theorem C10_witness :
    (lowestCalc emptyPS emptyProduct.product_sources).source = none ∧
    bestInit emptyProduct.product_sources = none ∧
    (notifyStep emptyPS bestAt42 emptyProduct).1 = false ∧
    (notifyStep emptyPS bestAt42 emptyProduct).2 emptyProduct.id = bestAt42 emptyProduct.id :=
  C10_empty_sources emptyPS bestAt42 emptyProduct rfl

end ShopScout

namespace ShopScout

/-- C4: when a previous minimum is recorded for a product and its
    sources yield a current minimum, the lowest-price toast fires iff
    the current minimum is strictly below the recorded one, and the
    record is then updated to the current minimum. -/
theorem C4_notification_iff (ps : PriceState) (best : BestMap) (p : Product) (cm m : ℚ)
    (hmin : currentMinOf ps p.product_sources = some cm)
    (hrec : best p.id = some m) :
    ((notifyStep ps best p).1 = true ↔ cm < m) ∧
    (notifyStep ps best p).2 p.id = some cm := by
  unfold notifyStep
  rw [hmin]
  simp [hrec]

/-- Witness for C4: one source priced 90 against a recorded minimum of
    100 fires the toast and re-records 90. -/
theorem C4_witness :
    ((notifyStep emptyPS bestAt100 oneSrcProduct).1 = true ↔ (90 : ℚ) < 100) ∧
    (notifyStep emptyPS bestAt100 oneSrcProduct).2 oneSrcProduct.id = some 90 :=
  C4_notification_iff emptyPS bestAt100 oneSrcProduct 90 100 rfl rfl

/-- Rounding to cents is exact on an exact number of cents. -/
theorem round2_cents (k : ℤ) : round2 ((k : ℚ) / 100) = (k : ℚ) / 100 := by
  unfold round2
  rw [div_mul_cancel₀ _ (by norm_num : (100 : ℚ) ≠ 0), round_intCast]

/-- C5: over the prices this client ever holds — positive amounts with
    cent granularity, as produced by the `DECIMAL(10,2)` columns, the
    `toFixed(2)` tick and the floor of 100 — the per-source drop toast
    fires exactly when the current price is below the previous one and
    the magnitude of the drop exceeds 2% of the previous price. -/
theorem C5_notable_drop_iff (pr : PricePair) (i j : ℤ)
    (hp : 0 < pr.prev) (hprev : pr.prev = (j : ℚ) / 100) (hcurr : pr.curr = (i : ℚ) / 100) :
    notableDrop pr = true ↔
      (pr.curr < pr.prev ∧ (2 : ℚ)/100 * pr.prev < pr.prev - pr.curr) := by
  have hd : rowDiff pr = pr.curr - pr.prev := by
    have hsub : pr.curr - pr.prev = ((i - j : ℤ) : ℚ) / 100 := by
      rw [hprev, hcurr]; push_cast; ring
    rw [rowDiff, hsub, round2_cents]
  unfold notableDrop rowWentDown
  rw [hd]
  simp only [Bool.and_eq_true, decide_eq_true_eq]
  constructor
  · rintro ⟨hlt, hgt⟩
    refine ⟨hlt, ?_⟩
    have habs : |pr.curr - pr.prev| = pr.prev - pr.curr := by
      rw [abs_sub_comm, abs_of_pos (by linarith)]
    rw [habs, lt_div_iff₀ hp] at hgt
    linarith
  · rintro ⟨hlt, hgt⟩
    refine ⟨hlt, ?_⟩
    have habs : |pr.curr - pr.prev| = pr.prev - pr.curr := by
      rw [abs_sub_comm, abs_of_pos (by linarith)]
    rw [habs, lt_div_iff₀ hp]
    linarith

/-- Witness for C5: previous 100.00, current 97.00 — a 3% drop fires. -/
theorem C5_witness : notableDrop { prev := 100, curr := 97 } = true := by
  have h := C5_notable_drop_iff { prev := 100, curr := 97 } 9700 10000
    (by norm_num) (by norm_num) (by norm_num)
  exact h.mpr ⟨by norm_num, by norm_num⟩

/-- C6: an external row-update event makes the source's previous price
    the last held current price and its current price the event's price;
    the rendered delta of the resulting pair is `(curr − prev)` rounded
    to cents, and the row is marked as a (green) drop exactly when the
    new price is lower. -/
theorem C6_update_pair (ps : PriceState) (sid : String) (pr : PricePair) (newP : ℚ)
    (h : ps sid = some pr) :
    applyUpdate ps sid newP sid = some { prev := pr.curr, curr := newP } ∧
    rowDiff { prev := pr.curr, curr := newP } = round2 (newP - pr.curr) ∧
    (rowWentDown { prev := pr.curr, curr := newP } = true ↔ newP < pr.curr) := by
  refine ⟨?_, rfl, by simp [rowWentDown]⟩
  simp [applyUpdate, h]

/-- Witness for C6: the spec scenario — an update from 98999.00 to
    95000.00 yields the pair (98999, 95000), a delta of −3999.00 and a
    green (downward) row. -/
theorem C6_witness :
    applyUpdate psFlipkart "src-flipkart" 95000 "src-flipkart" =
      some { prev := 98999, curr := 95000 } ∧
    rowDiff { prev := 98999, curr := 95000 } = -3999 ∧
    rowWentDown { prev := 98999, curr := 95000 } = true := by
  have h := C6_update_pair psFlipkart "src-flipkart" { prev := 98999, curr := 98999 } 95000
    (by simp [psFlipkart])
  refine ⟨h.1, ?_, ?_⟩
  · norm_num [rowDiff, round2, round_eq]
  · rw [(h.2.2).mpr (by norm_num)]

end ShopScout

namespace ShopScout

/-- Invariant of the best-price reduce: starting from an accumulator
    with a positive price, over sources whose effective prices are all
    positive, the fold computes the running minimum, and its result is
    either the initial accumulator or carries a visited source holding
    exactly the resulting price. -/
theorem foldl_lowStep_spec (ps : PriceState) (sources : List ProductSource) (acc : LowAcc)
    (hacc : 0 < acc.price) (hs : ∀ s ∈ sources, 0 < sourceCurr ps s) :
    0 < (sources.foldl (lowStep ps) acc).price ∧
    (sources.foldl (lowStep ps) acc).price = (sources.map (sourceCurr ps)).foldl min acc.price ∧
    (sources.foldl (lowStep ps) acc = acc ∨
      ∃ t, t ∈ sources ∧ (sources.foldl (lowStep ps) acc).source = some t ∧
        (sources.foldl (lowStep ps) acc).price = sourceCurr ps t) := by
  induction sources generalizing acc with
  | nil => exact ⟨hacc, rfl, Or.inl rfl⟩
  | cons s rest ih =>
    have hcs : 0 < sourceCurr ps s := hs s (List.mem_cons_self s rest)
    have hrest : ∀ t ∈ rest, 0 < sourceCurr ps t :=
      fun t ht => hs t (List.mem_cons_of_mem s ht)
    simp only [List.foldl_cons, List.map_cons]
    by_cases hlt : sourceCurr ps s < acc.price
    · have hstep : lowStep ps acc s = { price := sourceCurr ps s, source := some s } := by
        unfold lowStep
        rw [if_pos (Or.inr hlt)]
      rw [hstep]
      obtain ⟨h1, h2, h3⟩ := ih { price := sourceCurr ps s, source := some s } hcs hrest
      refine ⟨h1, ?_, ?_⟩
      · rw [h2, min_eq_right hlt.le]
      · rcases h3 with h3 | ⟨t, ht, h4, h5⟩
        · exact Or.inr ⟨s, List.mem_cons_self s rest, by rw [h3], by rw [h3]⟩
        · exact Or.inr ⟨t, List.mem_cons_of_mem s ht, h4, h5⟩
    · have hstep : lowStep ps acc s = acc := by
        unfold lowStep
        rw [if_neg]
        rintro (h0 | hc)
        · exact absurd h0 (ne_of_gt hacc)
        · exact hlt hc
      rw [hstep]
      obtain ⟨h1, h2, h3⟩ := ih acc hacc hrest
      refine ⟨h1, ?_, ?_⟩
      · rw [h2, min_eq_left (not_lt.mp hlt)]
      · rcases h3 with h3 | ⟨t, ht, h4, h5⟩
        · exact Or.inl h3
        · exact Or.inr ⟨t, List.mem_cons_of_mem s ht, h4, h5⟩

/-- C1 (amended): for a product with at least one source, all of whose
    effective current prices are positive (nonzero), the displayed best
    price is the minimum of those prices and is attributed to a source
    holding exactly that price.  (An effective price of exactly 0 resets
    the reduce's `acc.price === 0` sentinel, breaking the claim.) -/
theorem C1_best_is_min (ps : PriceState) (sources : List ProductSource)
    (hne : sources ≠ [])
    (hpos : ∀ s ∈ sources, 0 < sourceCurr ps s) :
    ∃ t, t ∈ sources ∧ (lowestCalc ps sources).source = some t ∧
      (lowestCalc ps sources).price = sourceCurr ps t ∧
      currentMinOf ps sources = some (lowestCalc ps sources).price := by
  cases sources with
  | nil => exact absurd rfl hne
  | cons s rest =>
    have hcs : 0 < sourceCurr ps s := hpos s (List.mem_cons_self s rest)
    have hrest : ∀ t ∈ rest, 0 < sourceCurr ps t :=
      fun t ht => hpos t (List.mem_cons_of_mem s ht)
    have hfirst : lowStep ps { price := 0, source := none } s =
        { price := sourceCurr ps s, source := some s } := by
      unfold lowStep
      rw [if_pos (Or.inl rfl)]
    have hcalc : lowestCalc ps (s :: rest) =
        rest.foldl (lowStep ps) { price := sourceCurr ps s, source := some s } := by
      unfold lowestCalc
      rw [List.foldl_cons, hfirst]
    obtain ⟨h1, h2, h3⟩ :=
      foldl_lowStep_spec ps rest { price := sourceCurr ps s, source := some s } hcs hrest
    have hmin : currentMinOf ps (s :: rest) =
        some ((rest.map (sourceCurr ps)).foldl min (sourceCurr ps s)) := by
      unfold currentMinOf
      rw [List.map_cons]
      rfl
    rcases h3 with h3 | ⟨t, ht, h4, h5⟩
    · refine ⟨s, List.mem_cons_self s rest, ?_, ?_, ?_⟩
      · rw [hcalc, h3]
      · rw [hcalc, h3]
      · rw [hmin, hcalc, h2]
    · refine ⟨t, List.mem_cons_of_mem s ht, ?_, ?_, ?_⟩
      · rw [hcalc, h4]
      · rw [hcalc, h5]
      · rw [hmin, hcalc, h2]

/-- C1 fails as stated: with sources priced 0 and 5 (in that order), the
    reduce's zero sentinel lets the second source overwrite the true
    minimum, so the displayed best price is 5 while the minimum of the
    current prices is 0. -/
theorem C1_counterexample :
    (lowestCalc emptyPS [zeroSource, fiveSource]).price = 5 ∧
    currentMinOf emptyPS [zeroSource, fiveSource] = some 0 ∧
    some (lowestCalc emptyPS [zeroSource, fiveSource]).price ≠
      currentMinOf emptyPS [zeroSource, fiveSource] := by
  have hp : (lowestCalc emptyPS [zeroSource, fiveSource]).price = 5 := by decide
  have hm : currentMinOf emptyPS [zeroSource, fiveSource] = some 0 := by
    have h5 : min (0 : ℚ) 5 = 0 := by norm_num
    exact congrArg some h5
  refine ⟨hp, hm, ?_⟩
  rw [hp, hm]
  intro h
  exact absurd (Option.some.inj h) (by norm_num)

/-- Witness for C1: the spec scenario — sources priced 99999.00 and
    98999.00 yield a displayed best price of 98999.00 attributed to the
    cheaper (Flipkart) source, which is the minimum. -/
theorem C1_witness :
    (∃ t, t ∈ [amazonSource, flipkartSource] ∧
      (lowestCalc emptyPS [amazonSource, flipkartSource]).source = some t ∧
      (lowestCalc emptyPS [amazonSource, flipkartSource]).price = sourceCurr emptyPS t ∧
      currentMinOf emptyPS [amazonSource, flipkartSource] =
        some (lowestCalc emptyPS [amazonSource, flipkartSource]).price) ∧
    (lowestCalc emptyPS [amazonSource, flipkartSource]).price = 98999 ∧
    (lowestCalc emptyPS [amazonSource, flipkartSource]).source = some flipkartSource :=
  ⟨C1_best_is_min emptyPS [amazonSource, flipkartSource] (by decide) (by decide),
   by decide, by decide⟩

end ShopScout

namespace ShopScout

/-- Rounding to cents moves a value by at most half a cent. -/
theorem round2_err (y : ℚ) : |round2 y - y| ≤ 1/200 := by
  have h : |(round (y * 100) : ℚ) - y * 100| ≤ 1/2 := by
    rw [abs_sub_comm]
    exact abs_sub_round (y * 100)
  unfold round2
  have heq : (round (y * 100) : ℚ) / 100 - y = ((round (y * 100) : ℚ) - y * 100) / 100 := by
    ring
  rw [heq, abs_div, abs_of_pos (show (0:ℚ) < 100 by norm_num)]
  linarith

/-- C3 (amended): a simulated tick never goes below the floor of 100;
    and when the previous price is at least the floor, the magnitude of
    the change is at most 2.5% of it plus the half-cent rounding of
    `toFixed(2)`.  (Below the floor the clamp itself can move the price
    by far more than 2.5%.) -/
theorem C3_tick_floor_bound (curr r : ℚ) (hr0 : 0 ≤ r) (hr1 : r < 1) :
    100 ≤ simTick curr r ∧
    (100 ≤ curr → |simTick curr r - curr| ≤ curr * (1/40) + 1/200) := by
  simp only [simTick]
  constructor
  · exact le_max_left _ _
  · intro hc
    have hcurr0 : (0:ℚ) < curr := by linarith
    have hd0 : -(1/40) ≤ (r - 1/2) * (5/100) := by nlinarith
    have hd1 : (r - 1/2) * (5/100) ≤ 1/40 := by nlinarith
    have h1 : curr * (-(1/40)) ≤ curr * ((r - 1/2) * (5/100)) :=
      mul_le_mul_of_nonneg_left hd0 hcurr0.le
    have h2 : curr * ((r - 1/2) * (5/100)) ≤ curr * (1/40) :=
      mul_le_mul_of_nonneg_left hd1 hcurr0.le
    have hxeq : curr * (1 + (r - 1/2) * (5/100)) = curr + curr * ((r - 1/2) * (5/100)) := by
      ring
    obtain ⟨hreL, hreR⟩ := abs_le.mp (round2_err (curr * (1 + (r - 1/2) * (5/100))))
    rcases le_total (round2 (curr * (1 + (r - 1/2) * (5/100)))) 100 with hle | hge
    · rw [max_eq_left hle]
      have habs : |(100:ℚ) - curr| = curr - 100 := by
        rw [abs_sub_comm, abs_of_nonneg (by linarith)]
      rw [habs]
      linarith
    · rw [max_eq_right hge]
      rw [abs_le]
      constructor <;> linarith

/-- C3 fails as stated: a source priced 50 (below the floor) with a
    neutral random draw is clamped up to 100, a 100% change — far beyond
    the configured ±2.5% bound. -/
theorem C3_counterexample :
    simTick 50 (1/2) = 100 ∧ ¬(|simTick 50 (1/2) - 50| ≤ 50 * (1/40) + 1/200) := by
  have h : simTick 50 (1/2) = 100 := by
    norm_num [simTick, round2, round_eq]
  refine ⟨h, ?_⟩
  rw [h]
  intro hcon
  have habs : |(100:ℚ) - 50| = 50 := by
    rw [abs_of_pos] <;> norm_num
  rw [habs] at hcon
  norm_num at hcon

/-- Witness for C3: a price of 200 with the lowest random draw drops to
    195, within the bound, and above the floor. -/
theorem C3_witness :
    100 ≤ simTick 200 0 ∧
    (100 ≤ (200:ℚ) → |simTick 200 0 - 200| ≤ 200 * (1/40) + 1/200) ∧
    simTick 200 0 = 195 :=
  ⟨(C3_tick_floor_bound 200 0 (by norm_num) (by norm_num)).1,
   (C3_tick_floor_bound 200 0 (by norm_num) (by norm_num)).2,
   by norm_num [simTick, round2, round_eq]⟩

end ShopScout
